import Mathlib

/-!
Verification of the vatsimpy repository: a shallow embedding of
src/modules/vatsim.py, src/modules/table.py and src/main.py, together with
theorems settling the specification claims.

Modelling conventions:

* Machine time: `datetime` values (UTC) are modelled as rational numbers of
  seconds.  `strptime` of the `general.update` timestamp string is abstracted
  by storing the denoted instant directly as a rational; the difference in
  minutes computed by `__is_data_outdated` is `(now - update) / 60`, matching
  `(time_now - time_then).total_seconds() / 60`.
* JSON data reads are modelled by the `FileRead` type: reading a file either
  finds no file (`FileNotFoundError`), finds unparsable content
  (`json.JSONDecodeError`), or yields a parsed `Dataset`.  Likewise `NetRead`
  models the outcome of `urllib.request.urlopen` on the live-data URL.
* I/O actions (contacting the remote endpoint, opening a local file) are
  recorded in an effect trace, so that temporal claims about which endpoints
  are contacted can be stated.
* Uncaught Python exceptions (`KeyError` on the `vatsim_data` dict) are
  modelled with `Except`; caught-and-logged exceptions do not surface.
-/

/-- A parsed flight plan: the `flight_plan` sub-record of a pilot entry of the
vatsim v3 dataset (`departure` and `arrival` are icao strings). -/
structure FlightPlan where
  departure : String
  arrival : String
deriving DecidableEq

/-- A pilot entry of the dataset: a callsign and an optional flight plan
(`flight_plan` is `null` in the JSON for flights without a filed plan). -/
structure Flight where
  callsign : String
  flight_plan : Option FlightPlan
deriving DecidableEq

/-- The `general` record of the dataset: `update` is the last-update instant
(modelled as UTC seconds, see the module docstring) and `reload` is the
server-declared refresh interval in minutes. -/
structure General where
  update : Rat
  reload : Rat
deriving DecidableEq

/-- The in-memory dataset shape: `general` plus the ordered `pilots` list. -/
structure Dataset where
  general : General
  pilots : List Flight
deriving DecidableEq

/-- `self.live_data_url` from `Vatsim.__init__`. -/
def live_data_url : String := "https://data.vatsim.net/v3/vatsim-data.json"

/-- `self.test_data_path` from `Vatsim.__init__`. -/
def test_data_path : String := "data/vatsim-data.json"

/-- `self.cached_data_path` from `Vatsim.__init__`. -/
def cached_data_path : String := "cache/vatsim.json"

/-- `self.update_delay = .5` from `Vatsim.__init__` (minutes). -/
def update_delay : Rat := 1 / 2

/-- The mutable state of a `Vatsim` instance: the `local_mode` flag, the
`vatsim_data` dict (`none` models the initial empty dict, before any
successful load) and the content of the cache file on disk (`none` when
no well-formed cache file exists). -/
structure VState where
  local_mode : Bool
  vatsim_data : Option Dataset
  cacheFile : Option Dataset
deriving DecidableEq

/-- Outcome of opening and json-parsing a local file. -/
inductive FileRead where
  | missing
  | malformed
  | ok (d : Dataset)
deriving DecidableEq

/-- Outcome of the HTTP GET against the live-data URL and of parsing its
body: a transport or HTTP-status error (both caught by `__fetch_new_data`),
a delivered response whose body is not valid JSON (whose `JSONDecodeError`
that method does not catch), or a parsed dataset. -/
inductive NetRead where
  | httpError
  | urlError
  | malformed
  | ok (d : Dataset)
deriving DecidableEq

/-- The external world as seen by one operation: what the network returns,
what the local test-data file contains, and whether the cache directory is
writable (an unwritable directory makes `open(path, "w")` raise the
`FileNotFoundError` that `__cache_data` catches). -/
structure Env where
  net : NetRead
  testFile : FileRead
  cacheDirOk : Bool
deriving DecidableEq

/-- Observable I/O effects: contacting the remote endpoint, or opening a
local data file at a given path. -/
inductive Effect where
  | remoteFetch (url : String)
  | localFetch (path : String)
deriving DecidableEq

/-- Uncaught Python exceptions reaching the top level: `KeyError` from
subscripting the empty `vatsim_data` dict, and the `json.JSONDecodeError`
that escapes `__fetch_new_data`. -/
inductive PyError where
  | keyError (key : String)
  | jsonDecodeError
deriving DecidableEq

/-- `Vatsim.__cache_data`: writes `vatsim_data` to the cache file; a
`FileNotFoundError` on the write is caught and logged, leaving the file
unchanged. -/
def cache_data (st : VState) (env : Env) : VState :=
  if env.cacheDirOk then { st with cacheFile := st.vatsim_data } else st

/-- `Vatsim.__fetch_local_data(path)`: opens and parses the file (`content`
is the outcome of that read); on `FileNotFoundError` or `JSONDecodeError`
the error is logged and the state is untouched; on success `vatsim_data` is
replaced by the parsed content and `__cache_data` runs. -/
def fetch_local_data (st : VState) (env : Env) (content : FileRead) (path : String) :
    List Effect × VState :=
  match content with
  | .missing => ([.localFetch path], st)
  | .malformed => ([.localFetch path], st)
  | .ok d => ([.localFetch path], cache_data { st with vatsim_data := some d } env)

/-- `Vatsim.__fail_safe`: sets `local_mode` to `True`, then fetches the local
test-data file. -/
def fail_safe (st : VState) (env : Env) : List Effect × VState :=
  fetch_local_data { st with local_mode := true } env env.testFile test_data_path

/-- `Vatsim.__fetch_new_data`: contacts the live-data URL; on `HTTPError` or
`URLError` it logs and runs `__fail_safe`; when the request succeeds but
`json.load(res)` finds an unparsable body, the resulting `JSONDecodeError`
matches neither of the two `except` clauses (they name only the urllib
errors) and propagates to the caller; on success it replaces `vatsim_data`
and runs `__cache_data`. -/
def fetch_new_data (st : VState) (env : Env) : List Effect × Except PyError VState :=
  match env.net with
  | .httpError =>
      let r := fail_safe st env
      (.remoteFetch live_data_url :: r.1, .ok r.2)
  | .urlError =>
      let r := fail_safe st env
      (.remoteFetch live_data_url :: r.1, .ok r.2)
  | .malformed => ([.remoteFetch live_data_url], .error .jsonDecodeError)
  | .ok d =>
      ([.remoteFetch live_data_url],
        .ok (cache_data { st with vatsim_data := some d } env))

/-- `Vatsim.__is_data_outdated`: reads `vatsim_data["general"]` (an uncaught
`KeyError` when the dict is empty), computes the age of the data in minutes,
and when the age strictly exceeds `reload + update_delay` fetches new live
data (`local_mode` false) or the local test data (`local_mode` true);
otherwise it only logs. -/
def is_data_outdated (st : VState) (env : Env) (now : Rat) :
    List Effect × Except PyError VState :=
  match st.vatsim_data with
  | none => ([], .error (.keyError "general"))
  | some d =>
      if (now - d.general.update) / 60 > d.general.reload + update_delay
          ∧ st.local_mode = false then
        fetch_new_data st env
      else if (now - d.general.update) / 60 > d.general.reload + update_delay
          ∧ st.local_mode = true then
        ((fetch_local_data st env env.testFile test_data_path).1,
          .ok (fetch_local_data st env env.testFile test_data_path).2)
      else ([], .ok st)

/-- `Vatsim.get_flights`: runs the staleness check, then returns
`vatsim_data["pilots"]` (an uncaught `KeyError` when the dict is empty). -/
def get_flights (st : VState) (env : Env) (now : Rat) :
    List Effect × Except PyError (VState × List Flight) :=
  match is_data_outdated st env now with
  | (effs, .error e) => (effs, .error e)
  | (effs, .ok st2) =>
      match st2.vatsim_data with
      | none => (effs, .error (.keyError "pilots"))
      | some d => (effs, .ok (st2, d.pilots))

/-- The filter condition of the loop in `Vatsim.get_flights_by_dep`:
`flight["flight_plan"]` is truthy and its `departure` equals `icao`. -/
def dep_matches (icao : String) (f : Flight) : Bool :=
  match f.flight_plan with
  | some fp => fp.departure == icao
  | none => false

/-- The filter condition of the loop in `Vatsim.get_flights_by_dest`:
`flight["flight_plan"]` is truthy and its `arrival` equals `icao`. -/
def dest_matches (icao : String) (f : Flight) : Bool :=
  match f.flight_plan with
  | some fp => fp.arrival == icao
  | none => false

/-- `Vatsim.get_flights_by_dep(icao)`: staleness check, then `get_flights`
(which checks again), then the accumulating loop over the flights, modelled
as a `List.filter`. -/
def get_flights_by_dep (st : VState) (env : Env) (now : Rat) (icao : String) :
    List Effect × Except PyError (VState × List Flight) :=
  match is_data_outdated st env now with
  | (effs, .error e) => (effs, .error e)
  | (effs1, .ok st2) =>
      match get_flights st2 env now with
      | (effs2, .error e) => (effs1 ++ effs2, .error e)
      | (effs2, .ok (st3, flights)) =>
          (effs1 ++ effs2, .ok (st3, flights.filter (dep_matches icao)))

/-- `Vatsim.get_flights_by_dest(icao)`: same as `get_flights_by_dep` with the
`arrival` field. -/
def get_flights_by_dest (st : VState) (env : Env) (now : Rat) (icao : String) :
    List Effect × Except PyError (VState × List Flight) :=
  match is_data_outdated st env now with
  | (effs, .error e) => (effs, .error e)
  | (effs1, .ok st2) =>
      match get_flights st2 env now with
      | (effs2, .error e) => (effs1 ++ effs2, .error e)
      | (effs2, .ok (st3, flights)) =>
          (effs1 ++ effs2, .ok (st3, flights.filter (dest_matches icao)))

/-- `Vatsim.__init__`: starts with an empty `vatsim_data`, runs
`__is_data_cached` (load the cache file if it exists, else local test data in
`local_mode`, else a remote fetch) and then `__is_data_outdated`.
`cacheRead` is `none` when no cache file exists, `some r` when the file
exists and reading it gives `r`; an exception escaping the startup remote
fetch aborts construction before the staleness check runs. -/
def vatsim_init (local_mode : Bool) (cacheRead : Option FileRead) (env : Env) (now : Rat) :
    List Effect × Except PyError VState :=
  let st0 : VState :=
    { local_mode := local_mode
      vatsim_data := none
      cacheFile := match cacheRead with | some (.ok d) => some d | _ => none }
  let r : List Effect × Except PyError VState :=
    match cacheRead with
    | some fr =>
        let s := fetch_local_data st0 env fr cached_data_path
        (s.1, .ok s.2)
    | none =>
        if local_mode then
          let s := fetch_local_data st0 env env.testFile test_data_path
          (s.1, .ok s.2)
        else fetch_new_data st0 env
  match r with
  | (effs, .error e) => (effs, .error e)
  | (effs, .ok st1) =>
      let r2 := is_data_outdated st1 env now
      (effs ++ r2.1, r2.2)

/-- The pure directional filter applied by `get_flights_by_dep` to the
resident dataset. -/
def flights_by_dep (d : Dataset) (icao : String) : List Flight :=
  d.pilots.filter (dep_matches icao)

/-- The pure directional filter applied by `get_flights_by_dest` to the
resident dataset. -/
def flights_by_dest (d : Dataset) (icao : String) : List Flight :=
  d.pilots.filter (dest_matches icao)

/-- One public query issued by the interactive loop against the `Vatsim`
instance, with the world (`Env`) and clock it observes. -/
inductive Call where
  | flights (env : Env) (now : Rat)
  | byDep (env : Env) (now : Rat) (icao : String)
  | byDest (env : Env) (now : Rat) (icao : String)

/-- Forget the returned flight list, keeping effects and the state. -/
def drop_result (r : List Effect × Except PyError (VState × List Flight)) :
    List Effect × Except PyError VState :=
  (r.1, r.2.map Prod.fst)

/-- Run one query call against the instance state. -/
def run_call (st : VState) : Call → List Effect × Except PyError VState
  | .flights env now => drop_result (get_flights st env now)
  | .byDep env now icao => drop_result (get_flights_by_dep st env now icao)
  | .byDest env now icao => drop_result (get_flights_by_dest st env now icao)

/-- Run a sequence of query calls, accumulating the effect trace and
stopping at the first uncaught exception. -/
def run_calls (st : VState) : List Call → List Effect × Except PyError VState
  | [] => ([], .ok st)
  | c :: cs =>
      match run_call st c with
      | (effs, .error e) => (effs, .error e)
      | (effs, .ok st2) =>
          (effs ++ (run_calls st2 cs).1, (run_calls st2 cs).2)


/-- True exactly when an operation completed without an uncaught
exception. -/
def isOkE {A : Type} : Except PyError A → Bool
  | .ok _ => true
  | .error _ => false

/-- `read_cache st` is the outcome of opening and json-parsing the cache
file whose content is `st.cacheFile`.  Serialising a Dataset-shaped value
with `json.dump` and parsing it back with `json.load` is the identity on
that shape, so a well-formed cache file reads back as exactly the stored
dataset. -/
def read_cache (st : VState) : FileRead :=
  match st.cacheFile with
  | some d => .ok d
  | none => .missing

/-- A JSON value as found in a pilot entry (enough of the shape for the
presentation layer's accesses). -/
inductive JVal where
  | str (s : String)
  | obj (fields : List (String × JVal))
  | jnull

/-- Python dict subscripting `d[k]` on a JSON object: the value under the
first matching key, or an uncaught `KeyError`. -/
def dict_get : List (String × JVal) → String → Except PyError JVal
  | [], k => .error (.keyError k)
  | (k2, v) :: rest, k => if k2 == k then .ok v else dict_get rest k

/-- The JSON object of a pilot entry with exactly the fields of the
documented external Dataset shape: `callsign` and `flight_plan`. -/
def flight_dict (f : Flight) : List (String × JVal) :=
  [("callsign", .str f.callsign),
   ("flight_plan",
     match f.flight_plan with
     | none => .jnull
     | some fp => .obj [("departure", .str fp.departure), ("arrival", .str fp.arrival)])]

/-- The departure-table row built by `dialog` in `main.py`:
`[dep["callsign"], dep["planned_destairport"]]`. -/
def dep_row (flight : List (String × JVal)) : Except PyError (List JVal) :=
  match dict_get flight "callsign" with
  | .error e => .error e
  | .ok c =>
      match dict_get flight "planned_destairport" with
      | .error e => .error e
      | .ok a => .ok [c, a]

/-- The arrival-table row built by `dialog` in `main.py`:
`[arr["callsign"], arr["planned_depairport"]]`. -/
def arr_row (flight : List (String × JVal)) : Except PyError (List JVal) :=
  match dict_get flight "callsign" with
  | .error e => .error e
  | .ok c =>
      match dict_get flight "planned_depairport" with
      | .error e => .error e
      | .ok a => .ok [c, a]

/-- `str.isalnum` of `main.py`, on the ASCII fragment: non-empty and every
character alphanumeric. -/
def pyIsalnum (s : String) : Bool := !s.data.isEmpty && s.data.all Char.isAlphanum

/-- The acceptance test of `dialog`:
`user_icao.isalnum() and len(user_icao) == 4`. -/
def valid_icao (s : String) : Bool := pyIsalnum s && s.length == 4

/-- `str.upper` of `main.py`, on the ASCII fragment. -/
def py_upper (s : String) : String := String.mk (s.data.map Char.toUpper)

/-- The input-validation loop of `dialog`: consume prompted inputs until one
is accepted (rejection prints a message and re-prompts, i.e. recurses on the
next input); returns the upper-cased accepted icao, `none` if the inputs run
out. -/
def dialog_input : List String → Option String
  | [] => none
  | s :: rest => if valid_icao s then some (py_upper s) else dialog_input rest

/-- The state of a `Table` from `src/modules/table.py`. -/
structure Table where
  title : String
  head : List String
  rows : List (List String)

/-- The single-quote character, written via its code point. -/
def squote : Char := Char.ofNat 39

/-- The backslash character. -/
def bslash : Char := Char.ofNat 92

/-- The opening-brace character. -/
def lbrace : Char := Char.ofNat 123

/-- The closing-brace character. -/
def rbrace : Char := Char.ofNat 125

/-- A one-character string holding a single quote. -/
def sq_str : String := String.mk [squote]

/-- `sorted(l, key=len)[-1]`: stable sort by length puts the last-occurring
longest element last; `none` models the `IndexError` on an empty list. -/
def last_longest : List String → Option String
  | l => l.foldl (fun acc s =>
      match acc with
      | none => some s
      | some m => if m.length ≤ s.length then some s else some m) none

/-- `Table.__find_widest_cell`: the widest head cell, the widest cell of
each row, then the widest of those; `none` models an `IndexError` from an
empty head or an empty row. -/
def find_widest_cell (t : Table) : Option String :=
  match last_longest t.head with
  | none => none
  | some h =>
      match t.rows.foldl (fun acc row =>
          match acc, last_longest row with
          | some cells, some c => some (cells ++ [c])
          | _, _ => none) (some [h]) with
      | none => none
      | some cells => last_longest cells

/-- The `string_part1` loop of `Table.__create_formatted_row` without its
surrounding quotes: one piece per cell, the last one closed with a bar. -/
def fmt_pieces (w : String) : List String → String
  | [] => ""
  | [_] => "| \x7b:<" ++ w ++ "\x7d |"
  | _ :: rest => "| \x7b:<" ++ w ++ "\x7d " ++ fmt_pieces w rest

/-- The argument list of `string_part2`: each cell value interpolated
between single quotes, comma separated. -/
def args_piece : List String → String
  | [] => ""
  | [c] => sq_str ++ c ++ sq_str
  | c :: rest => sq_str ++ c ++ sq_str ++ "," ++ args_piece rest

/-- The full expression handed to `eval` by `__create_formatted_row`:
`string_part1 + "." + string_part2`. -/
def build_code (w : String) (row : List String) : String :=
  sq_str ++ fmt_pieces w row ++ sq_str ++ "." ++ "format(" ++ args_piece row ++ ")"

/-- `str()` on a natural number (the width `str(len(widest))`), digits via
base-10 expansion (fuel-structural so that it computes by reduction). -/
def nat_repr_aux : Nat → Nat → List Char
  | 0, _ => []
  | fuel + 1, n =>
      if n < 10 then [Char.ofNat (48 + n)]
      else nat_repr_aux fuel (n / 10) ++ [Char.ofNat (48 + n % 10)]

/-- `str()` on a natural number. -/
def nat_repr (n : Nat) : String := String.mk (nat_repr_aux (n + 1) n)

/-- Scan the body of a single-quoted Python string literal up to its closing
quote.  Backslash escapes and control characters inside a literal are not
modelled: they yield `none` (a parse failure); the expressions generated by
`__create_formatted_row` from quote-, backslash- and control-free cells
never contain them inside a literal, and there the scan agrees with
Python. -/
def scan_str : List Char → Option (List Char × List Char)
  | [] => none
  | c :: cs =>
      if c = squote then some ([], cs)
      else if c = bslash ∨ c.toNat < 32 then none
      else
        match scan_str cs with
        | some (s, r) => some (c :: s, r)
        | none => none

/-- Scanner state while parsing the argument list of a `format(...)`
call: expecting the start of an argument (or the closing parenthesis when
no argument has started), inside a quoted argument, or after one. -/
inductive ArgScan where
  | expectArg (first : Bool)
  | inArg (cur : List Char)
  | afterArg

/-- Parse `'a','b',...')'` — the tail of the generated `format(` call — into
the list of argument strings; any other shape is a `SyntaxError` (`none`).
A cell containing a quote closes its literal early and derails this grammar
exactly as it derails Python's tokenizer. -/
def parse_args_go (st : ArgScan) (acc : List (List Char)) : List Char → Option (List (List Char))
  | [] => none
  | c :: rest =>
      match st with
      | .expectArg first =>
          if c = squote then parse_args_go (.inArg []) acc rest
          else if first = true ∧ c = ')' ∧ rest = [] then some acc
          else none
      | .inArg cur =>
          if c = squote then parse_args_go .afterArg (acc ++ [cur]) rest
          else if c = bslash ∨ c.toNat < 32 then none
          else parse_args_go (.inArg (cur ++ [c])) acc rest
      | .afterArg =>
          if c = ',' then parse_args_go (.expectArg false) acc rest
          else if c = ')' ∧ rest = [] then some acc
          else none

/-- An ASCII digit, as allowed in a format-spec width. -/
def digit_char (c : Char) : Bool := decide (48 ≤ c.toNat) && decide (c.toNat ≤ 57)

/-- Numeric value of an ASCII digit. -/
def digit_val (c : Char) : Nat := c.toNat - 48

/-- Base-10 value of a digit string. -/
def digits_to_nat (ds : List Char) : Nat := ds.foldl (fun n c => 10 * n + digit_val c) 0

/-- `str.format` left-alignment `{:<w}`: pad with spaces on the right, no
truncation. -/
def pad_left_align (s : List Char) (w : Nat) : List Char :=
  s ++ List.replicate (w - s.length) ' '

/-- `str.format` on the format strings generated by
`__create_formatted_row`: literal characters plus placeholders of the shape
open-brace, colon, less-than, digits, close-brace, each consuming the next
argument (an exhausted argument list models the `IndexError`).  The first
parameter is `none` outside a placeholder and carries the digits scanned so
far inside one. -/
def run_fmt : Option (List Char) → List (List Char) → List Char → Option (List Char)
  | none, _, [] => some []
  | some _, _, [] => none
  | none, args, c :: rest =>
      if c = lbrace then
        match rest with
        | c1 :: c2 :: rest2 =>
            if c1 = ':' ∧ c2 = '<' then run_fmt (some []) args rest2 else none
        | _ => none
      else if c = rbrace then none
      else
        match run_fmt none args rest with
        | some out => some (c :: out)
        | none => none
  | some ds, args, c :: rest =>
      if digit_char c then run_fmt (some (ds ++ [c])) args rest
      else if c = rbrace then
        match ds, args with
        | _ :: _, a :: args2 =>
            match run_fmt none args2 rest with
            | some out => some (pad_left_align a (digits_to_nat ds) ++ out)
            | none => none
        | _, _ => none
      else none

/-- Python `eval` on the expression grammar generated by
`__create_formatted_row`: a single-quoted literal, `.format(`, quoted
arguments, `)`.  Anything else is a `SyntaxError`; a failing placeholder
substitution is an `IndexError`. -/
def py_eval_format_expr (code : String) : Except String String :=
  match code.data with
  | [] => .error "SyntaxError"
  | c :: rest =>
      if c = squote then
        match scan_str rest with
        | none => .error "SyntaxError"
        | some (fmt, r2) =>
            if r2.take 8 = ".format(".data then
              match parse_args_go (.expectArg true) [] (r2.drop 8) with
              | none => .error "SyntaxError"
              | some args =>
                  match run_fmt none args fmt with
                  | some out => .ok (String.mk out)
                  | none => .error "IndexError"
            else .error "SyntaxError"
      else .error "SyntaxError"

/-- `Table.__create_formatted_row`: compute the width of the widest cell,
build the expression string from the row's cells, and `eval` it. -/
def create_formatted_row (t : Table) (row : List String) : Except String String :=
  match find_widest_cell t with
  | none => .error "IndexError"
  | some widest => py_eval_format_expr (build_code (nat_repr widest.length) row)

/-- The correctly padded table row the formatter is meant to produce: each
cell left-aligned in a field of width `w` between bars. -/
def padded_cells_chars (w : Nat) : List String → List Char
  | [] => []
  | [c] => '|' :: ' ' :: (pad_left_align c.data w ++ (' ' :: '|' :: []))
  | c :: rest => '|' :: ' ' :: (pad_left_align c.data w ++ (' ' :: padded_cells_chars w rest))

/-- The correctly padded table row as a string. -/
def padded_row (w : Nat) (row : List String) : String :=
  String.mk (padded_cells_chars w row)

/-- A cell character that survives interpolation into a single-quoted
Python literal: not a quote, not a backslash, not a control character. -/
def plain_cell_char (c : Char) : Bool :=
  !(c = squote : Bool) && !(c = bslash : Bool) && decide (32 ≤ c.toNat)

/-- A cell free of quote, backslash and control characters. -/
def plain_cell (s : String) : Bool := s.data.all plain_cell_char

/-! ### Sample data used by witnesses -/

/-- Sample flight plan (the spec's scenario data). -/
def fp1 : FlightPlan := { departure := "EGLL", arrival := "EDDF" }

/-- Sample flight with a filed plan. -/
def fl1 : Flight := { callsign := "BAW123", flight_plan := some fp1 }

/-- Sample flight without a filed plan. -/
def fl2 : Flight := { callsign := "DLH456", flight_plan := none }

/-- Sample dataset: updated at instant 0, reload interval 1 minute. -/
def ds1 : Dataset := { general := { update := 0, reload := 1 }, pilots := [fl1, fl2] }

/-- Sample environment where every read succeeds. -/
def env1 : Env := { net := .ok ds1, testFile := .ok ds1, cacheDirOk := true }

/-- Sample state holding `ds1`, not in local mode. -/
def stFresh : VState := { local_mode := false, vatsim_data := some ds1, cacheFile := none }

/-- Sample state holding `ds1`, in local mode. -/
def stLocal : VState := { local_mode := true, vatsim_data := some ds1, cacheFile := none }

/-- Sample state reached after a local-mode refresh of `stLocal`. -/
def stC2 : VState := { local_mode := true, vatsim_data := some ds1, cacheFile := some ds1 }


/-- Sample self-loop flight: departure and arrival are the same airport. -/
def fl3 : Flight := { callsign := "SELF1", flight_plan := some { departure := "EGLL", arrival := "EGLL" } }

/-- Sample dataset containing the self-loop flight once. -/
def ds2 : Dataset := { general := { update := 0, reload := 1 }, pilots := [fl1, fl3, fl2] }

/-- Sample environment where the network is down and the local test-data
file is missing. -/
def env_missing : Env := { net := .urlError, testFile := .missing, cacheDirOk := true }

/-- Sample environment where the remote HTTP request succeeds but the body
is not valid JSON. -/
def env_badjson : Env := { net := .malformed, testFile := .ok ds1, cacheDirOk := true }

/-- Sample state with an empty `vatsim_data` dict (nothing ever loaded). -/
def stEmpty : VState := { local_mode := true, vatsim_data := none, cacheFile := none }

/-- Sample cell containing a single quote. -/
def quoted_cell : String := "O" ++ sq_str ++ "HARE"

/-- Sample table whose row holds a quote-bearing cell. -/
def tbl0 : Table := { title := "T", head := ["Flight", "To"], rows := [["AAL1", quoted_cell]] }

/-! ### Basic lemmas about the fetch operations -/

/-- A local fetch performs exactly one local-file read, whatever the file
contains. -/
theorem fetch_local_effects (st : VState) (env : Env) (content : FileRead) (path : String) :
    (fetch_local_data st env content path).1 = [.localFetch path] := by
  cases content <;> rfl

/-- A remote fetch always contacts the live-data URL first. -/
theorem fetch_new_effects_head (st : VState) (env : Env) :
    ∃ l, (fetch_new_data st env).1 = .remoteFetch live_data_url :: l := by
  cases h : env.net <;> simp [fetch_new_data, h, fail_safe, fetch_local_effects]

/-- Branch lemma: fresh data makes the staleness check a no-op. -/
theorem is_data_outdated_of_fresh (st : VState) (d : Dataset) (env : Env) (now : Rat)
    (hload : st.vatsim_data = some d)
    (h : ¬ (now - d.general.update) / 60 > d.general.reload + update_delay) :
    is_data_outdated st env now = ([], .ok st) := by
  simp only [is_data_outdated, hload]
  rw [if_neg, if_neg]
  · rintro ⟨hs, -⟩; exact h hs
  · rintro ⟨hs, -⟩; exact h hs

/-- Branch lemma: stale data in local mode fetches the local test file. -/
theorem is_data_outdated_of_stale_local (st : VState) (d : Dataset) (env : Env) (now : Rat)
    (hload : st.vatsim_data = some d)
    (h : (now - d.general.update) / 60 > d.general.reload + update_delay)
    (hlm : st.local_mode = true) :
    is_data_outdated st env now =
      ([.localFetch test_data_path],
        .ok (fetch_local_data st env env.testFile test_data_path).2) := by
  simp only [is_data_outdated, hload]
  rw [if_neg, if_pos ⟨h, hlm⟩, fetch_local_effects]
  rintro ⟨-, hf⟩; rw [hlm] at hf; exact Bool.noConfusion hf

/-- Branch lemma: stale data outside local mode fetches from the remote
endpoint. -/
theorem is_data_outdated_of_stale_remote (st : VState) (d : Dataset) (env : Env) (now : Rat)
    (hload : st.vatsim_data = some d)
    (h : (now - d.general.update) / 60 > d.general.reload + update_delay)
    (hlm : st.local_mode = false) :
    is_data_outdated st env now = fetch_new_data st env := by
  simp only [is_data_outdated, hload]
  rw [if_pos ⟨h, hlm⟩]

/-- Claim C1: for every loaded dataset and every now-time, the staleness
check triggers a fetch iff the age of the data in minutes strictly exceeds
`general.reload + 0.5`; a triggered fetch is the remote fetch when
`local_mode` is false and the local test-data fetch when `local_mode` is
true; and when nothing triggers, no fetch happens and all state is
unchanged. -/
theorem c1_staleness_trigger (st : VState) (d : Dataset) (env : Env) (now : Rat)
    (hload : st.vatsim_data = some d) :
    ((is_data_outdated st env now).1 ≠ [] ↔
        (now - d.general.update) / 60 > d.general.reload + 1 / 2)
    ∧ ((now - d.general.update) / 60 > d.general.reload + 1 / 2 →
        st.local_mode = false →
        is_data_outdated st env now = fetch_new_data st env
        ∧ (fetch_new_data st env).1.head? = some (.remoteFetch live_data_url))
    ∧ ((now - d.general.update) / 60 > d.general.reload + 1 / 2 →
        st.local_mode = true →
        is_data_outdated st env now =
          ([.localFetch test_data_path],
            .ok (fetch_local_data st env env.testFile test_data_path).2))
    ∧ (¬ (now - d.general.update) / 60 > d.general.reload + 1 / 2 →
        is_data_outdated st env now = ([], .ok st)) := by
  obtain ⟨tl, htl⟩ := fetch_new_effects_head st env
  have hud : update_delay = 1 / 2 := rfl
  by_cases hstale : (now - d.general.update) / 60 > d.general.reload + 1 / 2
  · have hstale' : (now - d.general.update) / 60 > d.general.reload + update_delay := by
      rw [hud]; exact hstale
    rcases Bool.eq_false_or_eq_true st.local_mode with hlm | hlm
    · have hres : is_data_outdated st env now =
          ([.localFetch test_data_path],
            .ok (fetch_local_data st env env.testFile test_data_path).2) := by
        simp only [is_data_outdated, hload]
        rw [if_neg, if_pos ⟨hstale', hlm⟩, fetch_local_effects]
        rintro ⟨-, hf⟩; rw [hlm] at hf; exact Bool.noConfusion hf
      refine ⟨⟨fun _ => hstale, fun _ => ?_⟩, ?_, ?_, ?_⟩
      · rw [hres]; exact List.cons_ne_nil _ _
      · intro _ hf; rw [hlm] at hf; exact Bool.noConfusion hf
      · intro _ _; exact hres
      · intro hns; exact absurd hstale hns
    · have hres : is_data_outdated st env now = fetch_new_data st env := by
        simp only [is_data_outdated, hload]
        rw [if_pos ⟨hstale', hlm⟩]
      refine ⟨⟨fun _ => hstale, fun _ => ?_⟩, ?_, ?_, ?_⟩
      · rw [hres, htl]; exact List.cons_ne_nil _ _
      · intro _ _; exact ⟨hres, by rw [htl]; rfl⟩
      · intro _ htrue; rw [hlm] at htrue; exact Bool.noConfusion htrue
      · intro hns; exact absurd hstale hns
  · have hns' : ¬ ((now - d.general.update) / 60 > d.general.reload + update_delay) := by
      rw [hud]; exact hstale
    have hres : is_data_outdated st env now = ([], .ok st) := by
      simp only [is_data_outdated, hload]
      rw [if_neg, if_neg]
      · rintro ⟨hs, -⟩; exact hns' hs
      · rintro ⟨hs, -⟩; exact hns' hs
    refine ⟨⟨fun hne => ?_, fun hs => absurd hs hstale⟩,
      fun hs _ => absurd hs hstale, fun hs _ => absurd hs hstale, fun _ => hres⟩
    exact absurd (by rw [hres]) hne

/-- Witness for C1 at concrete inputs: a stale dataset (10 minutes old,
reload interval 1 minute) outside local mode makes the staleness check take
the remote-fetch branch. -/
theorem c1_staleness_trigger_witness :
    is_data_outdated stFresh env1 600 = fetch_new_data stFresh env1 :=
  ((c1_staleness_trigger stFresh ds1 env1 600 rfl).2.1 (by norm_num [ds1]) rfl).1

/-! ### Local-mode invariance (claim C2) -/

/-- Writing the cache never touches `local_mode`. -/
theorem cache_data_local_mode (st : VState) (env : Env) :
    (cache_data st env).local_mode = st.local_mode := by
  unfold cache_data; split <;> rfl

/-- A local fetch never touches `local_mode`. -/
theorem fetch_local_local_mode (st : VState) (env : Env) (c : FileRead) (p : String) :
    (fetch_local_data st env c p).2.local_mode = st.local_mode := by
  cases c <;> simp [fetch_local_data, cache_data_local_mode]

/-- In local mode the staleness check only ever reads the local test-data
file and leaves `local_mode` set. -/
theorem is_data_outdated_local (st : VState) (env : Env) (now : Rat)
    (h : st.local_mode = true) :
    (∀ e ∈ (is_data_outdated st env now).1, e = Effect.localFetch test_data_path)
    ∧ (∀ st2, (is_data_outdated st env now).2 = .ok st2 → st2.local_mode = true) := by
  cases hd : st.vatsim_data with
  | none => simp [is_data_outdated, hd]
  | some d =>
      by_cases hstale : (now - d.general.update) / 60 > d.general.reload + update_delay
      · have hres : is_data_outdated st env now =
            ([.localFetch test_data_path],
              .ok (fetch_local_data st env env.testFile test_data_path).2) := by
          simp only [is_data_outdated, hd]
          rw [if_neg, if_pos ⟨hstale, h⟩, fetch_local_effects]
          rintro ⟨-, hf⟩; rw [h] at hf; exact Bool.noConfusion hf
        rw [hres]
        refine ⟨by simp, ?_⟩
        intro st2 h2
        injection h2 with h2
        rw [← h2, fetch_local_local_mode]
        exact h
      · have hres : is_data_outdated st env now = ([], .ok st) := by
          simp only [is_data_outdated, hd]
          rw [if_neg, if_neg]
          · rintro ⟨hs, -⟩; exact hstale hs
          · rintro ⟨hs, -⟩; exact hstale hs
        rw [hres]
        refine ⟨by simp, ?_⟩
        intro st2 h2
        injection h2 with h2
        rw [← h2]
        exact h

/-- In local mode `get_flights` only ever reads the local test-data file and
leaves `local_mode` set. -/
theorem get_flights_local (st : VState) (env : Env) (now : Rat)
    (h : st.local_mode = true) :
    (∀ e ∈ (get_flights st env now).1, e = Effect.localFetch test_data_path)
    ∧ (∀ p, (get_flights st env now).2 = .ok p → p.1.local_mode = true) := by
  obtain ⟨hio1, hio2⟩ := is_data_outdated_local st env now h
  rcases hio : is_data_outdated st env now with ⟨effs, res⟩
  rw [hio] at hio1 hio2
  cases res with
  | error e =>
      simp only [get_flights, hio]
      exact ⟨hio1, by intro p hp; cases hp⟩
  | ok st2 =>
      have h2 : st2.local_mode = true := hio2 st2 rfl
      cases hd2 : st2.vatsim_data with
      | none =>
          simp only [get_flights, hio, hd2]
          exact ⟨hio1, by intro p hp; cases hp⟩
      | some d =>
          simp only [get_flights, hio, hd2]
          refine ⟨hio1, ?_⟩
          intro p hp
          injection hp with hp
          rw [← hp]
          exact h2

/-- In local mode `get_flights_by_dep` only ever reads the local test-data
file and leaves `local_mode` set. -/
theorem get_flights_by_dep_local (st : VState) (env : Env) (now : Rat) (icao : String)
    (h : st.local_mode = true) :
    (∀ e ∈ (get_flights_by_dep st env now icao).1, e = Effect.localFetch test_data_path)
    ∧ (∀ p, (get_flights_by_dep st env now icao).2 = .ok p → p.1.local_mode = true) := by
  obtain ⟨hio1, hio2⟩ := is_data_outdated_local st env now h
  rcases hio : is_data_outdated st env now with ⟨effs1, res1⟩
  rw [hio] at hio1 hio2
  cases res1 with
  | error e =>
      simp only [get_flights_by_dep, hio]
      exact ⟨hio1, by intro p hp; cases hp⟩
  | ok st2 =>
      have h2 : st2.local_mode = true := hio2 st2 rfl
      obtain ⟨hgf1, hgf2⟩ := get_flights_local st2 env now h2
      rcases hgf : get_flights st2 env now with ⟨effs2, res2⟩
      rw [hgf] at hgf1 hgf2
      cases res2 with
      | error e =>
          simp only [get_flights_by_dep, hio, hgf]
          refine ⟨?_, by intro p hp; cases hp⟩
          intro e he
          rcases List.mem_append.mp he with he | he
          · exact hio1 e he
          · exact hgf1 e he
      | ok p =>
          simp only [get_flights_by_dep, hio, hgf]
          refine ⟨?_, ?_⟩
          · intro e he
            rcases List.mem_append.mp he with he | he
            · exact hio1 e he
            · exact hgf1 e he
          · intro q hq
            injection hq with hq
            rw [← hq]
            exact hgf2 p rfl

/-- In local mode `get_flights_by_dest` only ever reads the local test-data
file and leaves `local_mode` set. -/
theorem get_flights_by_dest_local (st : VState) (env : Env) (now : Rat) (icao : String)
    (h : st.local_mode = true) :
    (∀ e ∈ (get_flights_by_dest st env now icao).1, e = Effect.localFetch test_data_path)
    ∧ (∀ p, (get_flights_by_dest st env now icao).2 = .ok p → p.1.local_mode = true) := by
  obtain ⟨hio1, hio2⟩ := is_data_outdated_local st env now h
  rcases hio : is_data_outdated st env now with ⟨effs1, res1⟩
  rw [hio] at hio1 hio2
  cases res1 with
  | error e =>
      simp only [get_flights_by_dest, hio]
      exact ⟨hio1, by intro p hp; cases hp⟩
  | ok st2 =>
      have h2 : st2.local_mode = true := hio2 st2 rfl
      obtain ⟨hgf1, hgf2⟩ := get_flights_local st2 env now h2
      rcases hgf : get_flights st2 env now with ⟨effs2, res2⟩
      rw [hgf] at hgf1 hgf2
      cases res2 with
      | error e =>
          simp only [get_flights_by_dest, hio, hgf]
          refine ⟨?_, by intro p hp; cases hp⟩
          intro e he
          rcases List.mem_append.mp he with he | he
          · exact hio1 e he
          · exact hgf1 e he
      | ok p =>
          simp only [get_flights_by_dest, hio, hgf]
          refine ⟨?_, ?_⟩
          · intro e he
            rcases List.mem_append.mp he with he | he
            · exact hio1 e he
            · exact hgf1 e he
          · intro q hq
            injection hq with hq
            rw [← hq]
            exact hgf2 p rfl

/-- In local mode any single call only reads the local test-data file and
leaves `local_mode` set. -/
theorem run_call_local (st : VState) (c : Call) (h : st.local_mode = true) :
    (∀ e ∈ (run_call st c).1, e = Effect.localFetch test_data_path)
    ∧ (∀ st2, (run_call st c).2 = .ok st2 → st2.local_mode = true) := by
  cases c with
  | flights env now =>
      obtain ⟨h1, h2⟩ := get_flights_local st env now h
      rcases hg : get_flights st env now with ⟨effs, res⟩
      rw [hg] at h1 h2
      simp only [run_call, drop_result, hg]
      cases res with
      | error e =>
          simp only [Except.map]
          exact ⟨h1, by intro st2 hst; cases hst⟩
      | ok p =>
          simp only [Except.map]
          refine ⟨h1, ?_⟩
          intro st2 hst
          injection hst with hst
          rw [← hst]
          exact h2 p rfl
  | byDep env now icao =>
      obtain ⟨h1, h2⟩ := get_flights_by_dep_local st env now icao h
      rcases hg : get_flights_by_dep st env now icao with ⟨effs, res⟩
      rw [hg] at h1 h2
      simp only [run_call, drop_result, hg]
      cases res with
      | error e =>
          simp only [Except.map]
          exact ⟨h1, by intro st2 hst; cases hst⟩
      | ok p =>
          simp only [Except.map]
          refine ⟨h1, ?_⟩
          intro st2 hst
          injection hst with hst
          rw [← hst]
          exact h2 p rfl
  | byDest env now icao =>
      obtain ⟨h1, h2⟩ := get_flights_by_dest_local st env now icao h
      rcases hg : get_flights_by_dest st env now icao with ⟨effs, res⟩
      rw [hg] at h1 h2
      simp only [run_call, drop_result, hg]
      cases res with
      | error e =>
          simp only [Except.map]
          exact ⟨h1, by intro st2 hst; cases hst⟩
      | ok p =>
          simp only [Except.map]
          refine ⟨h1, ?_⟩
          intro st2 hst
          injection hst with hst
          rw [← hst]
          exact h2 p rfl

/-- In local mode every call of a sequence only reads the local test-data
file and `local_mode` stays set at the end. -/
theorem run_calls_local (st : VState) (cs : List Call) (h : st.local_mode = true) :
    (∀ e ∈ (run_calls st cs).1, e = Effect.localFetch test_data_path)
    ∧ (∀ st2, (run_calls st cs).2 = .ok st2 → st2.local_mode = true) := by
  induction cs generalizing st with
  | nil =>
      refine ⟨by simp [run_calls], ?_⟩
      intro st2 h2
      injection h2 with h2
      rw [← h2]
      exact h
  | cons c cs ih =>
      obtain ⟨hc1, hc2⟩ := run_call_local st c h
      rcases hr : run_call st c with ⟨effs, res⟩
      rw [hr] at hc1 hc2
      cases res with
      | error e =>
          simp only [run_calls, hr]
          exact ⟨hc1, by intro st2 hst; cases hst⟩
      | ok st2 =>
          obtain ⟨hi1, hi2⟩ := ih st2 (hc2 st2 rfl)
          simp only [run_calls, hr]
          refine ⟨?_, hi2⟩
          intro e he
          rcases List.mem_append.mp he with he | he
          · exact hc1 e he
          · exact hi1 e he

/-- Claim C2: the fail-safe switches `local_mode` on (reading the local
test-data file as it does so), and from any state with `local_mode` set,
every effect of every subsequent query sequence is a read of the local
test-data path — in particular the remote endpoint is never contacted
again — and `local_mode` is still set whenever the sequence completes. -/
theorem c2_local_mode_permanent (st : VState) (cs : List Call)
    (hlm : st.local_mode = true) :
    (∀ st0 env0, (fail_safe st0 env0).2.local_mode = true)
    ∧ (∀ st0 env0, (fail_safe st0 env0).1 = [Effect.localFetch test_data_path])
    ∧ (∀ e ∈ (run_calls st cs).1, e = Effect.localFetch test_data_path)
    ∧ (∀ e ∈ (run_calls st cs).1, ∀ url, e ≠ Effect.remoteFetch url)
    ∧ (∀ st2, (run_calls st cs).2 = .ok st2 → st2.local_mode = true) := by
  obtain ⟨h1, h2⟩ := run_calls_local st cs hlm
  refine ⟨?_, ?_, h1, ?_, h2⟩
  · intro st0 env0
    rw [fail_safe, fetch_local_local_mode]
  · intro st0 env0
    rw [fail_safe, fetch_local_effects]
  · intro e he url
    rw [h1 e he]
    intro hcontra
    cases hcontra

/-- Witness for C2 at concrete inputs: the fail-safe itself, and a stale
query sequence run in local mode, which refreshes twice from the local
test-data file and keeps `local_mode` set. -/
theorem c2_local_mode_permanent_witness :
    (fail_safe stFresh env1).2.local_mode = true
    ∧ (fail_safe stFresh env1).1 = [Effect.localFetch test_data_path]
    ∧ stC2.local_mode = true := by
  have h1 : is_data_outdated stLocal env1 600 =
      ([Effect.localFetch test_data_path], .ok stC2) := by
    rw [is_data_outdated_of_stale_local stLocal ds1 env1 600 rfl
      (by norm_num [ds1, update_delay]) rfl]
    rfl
  have h2 : is_data_outdated stC2 env1 600 =
      ([Effect.localFetch test_data_path], .ok stC2) := by
    rw [is_data_outdated_of_stale_local stC2 ds1 env1 600 rfl
      (by norm_num [ds1, update_delay]) rfl]
    rfl
  have h3 : get_flights stC2 env1 600 =
      ([Effect.localFetch test_data_path], .ok (stC2, ds1.pilots)) := by
    simp only [get_flights, h2]
    rfl
  have h4 : get_flights_by_dep stLocal env1 600 "EGLL" =
      ([Effect.localFetch test_data_path, Effect.localFetch test_data_path],
        .ok (stC2, [fl1])) := by
    simp only [get_flights_by_dep, h1, h3]
    rfl
  have h5 : run_calls stLocal [Call.byDep env1 600 "EGLL"] =
      ([Effect.localFetch test_data_path, Effect.localFetch test_data_path], .ok stC2) := by
    simp only [run_calls, run_call, drop_result, h4]
    rfl
  exact ⟨(c2_local_mode_permanent stLocal [] rfl).1 stFresh env1,
    (c2_local_mode_permanent stLocal [] rfl).2.1 stFresh env1,
    (c2_local_mode_permanent stLocal [Call.byDep env1 600 "EGLL"] rfl).2.2.2.2
      stC2 (by rw [h5])⟩

/-! ### Directional queries (claims C3, C8) -/

/-- `dep_matches` holds exactly on flights with a present flight plan whose
departure equals the query icao. -/
theorem dep_matches_iff (icao : String) (f : Flight) :
    dep_matches icao f = true ↔
      ∃ fp, f.flight_plan = some fp ∧ fp.departure = icao := by
  cases h : f.flight_plan <;> simp [dep_matches, h]

/-- `dest_matches` holds exactly on flights with a present flight plan whose
arrival equals the query icao. -/
theorem dest_matches_iff (icao : String) (f : Flight) :
    dest_matches icao f = true ↔
      ∃ fp, f.flight_plan = some fp ∧ fp.arrival = icao := by
  cases h : f.flight_plan <;> simp [dest_matches, h]

/-- A successful `get_flights` returns exactly the pilots of the resident
dataset of its final state. -/
theorem get_flights_ok (st : VState) (env : Env) (now : Rat) (st3 : VState)
    (flights : List Flight) (h : (get_flights st env now).2 = .ok (st3, flights)) :
    ∃ d, st3.vatsim_data = some d ∧ flights = d.pilots := by
  rcases hio : is_data_outdated st env now with ⟨effs, res⟩
  cases res with
  | error e => rw [get_flights, hio] at h; cases h
  | ok st2 =>
      cases hd : st2.vatsim_data with
      | none =>
          rw [get_flights, hio] at h
          simp only [hd] at h
          cases h
      | some d =>
          rw [get_flights, hio] at h
          simp only [hd] at h
          injection h with h
          obtain ⟨h1, h2⟩ := Prod.mk.injEq .. ▸ h
          exact ⟨d, h1 ▸ hd, h2.symm⟩

/-- A successful `get_flights_by_dep` returns the departure filter of the
resident dataset of its final state. -/
theorem get_flights_by_dep_ok (st : VState) (env : Env) (now : Rat) (icao : String)
    (st3 : VState) (res : List Flight)
    (h : (get_flights_by_dep st env now icao).2 = .ok (st3, res)) :
    ∃ d, st3.vatsim_data = some d ∧ res = d.pilots.filter (dep_matches icao) := by
  rcases hio : is_data_outdated st env now with ⟨effs1, res1⟩
  cases res1 with
  | error e => rw [get_flights_by_dep, hio] at h; cases h
  | ok st2 =>
      rcases hgf : get_flights st2 env now with ⟨effs2, res2⟩
      cases res2 with
      | error e =>
          simp only [get_flights_by_dep, hio, hgf] at h
          cases h
      | ok p =>
          obtain ⟨st4, flights⟩ := p
          simp only [get_flights_by_dep, hio, hgf] at h
          injection h with h
          obtain ⟨h1, h2⟩ := Prod.mk.injEq .. ▸ h
          obtain ⟨d, hd, hp⟩ := get_flights_ok st2 env now st4 flights (by rw [hgf])
          exact ⟨d, h1 ▸ hd, by rw [← h2, hp]⟩

/-- A successful `get_flights_by_dest` returns the arrival filter of the
resident dataset of its final state. -/
theorem get_flights_by_dest_ok (st : VState) (env : Env) (now : Rat) (icao : String)
    (st3 : VState) (res : List Flight)
    (h : (get_flights_by_dest st env now icao).2 = .ok (st3, res)) :
    ∃ d, st3.vatsim_data = some d ∧ res = d.pilots.filter (dest_matches icao) := by
  rcases hio : is_data_outdated st env now with ⟨effs1, res1⟩
  cases res1 with
  | error e => rw [get_flights_by_dest, hio] at h; cases h
  | ok st2 =>
      rcases hgf : get_flights st2 env now with ⟨effs2, res2⟩
      cases res2 with
      | error e =>
          simp only [get_flights_by_dest, hio, hgf] at h
          cases h
      | ok p =>
          obtain ⟨st4, flights⟩ := p
          simp only [get_flights_by_dest, hio, hgf] at h
          injection h with h
          obtain ⟨h1, h2⟩ := Prod.mk.injEq .. ▸ h
          obtain ⟨d, hd, hp⟩ := get_flights_ok st2 env now st4 flights (by rw [hgf])
          exact ⟨d, h1 ▸ hd, by rw [← h2, hp]⟩

/-- Claim C3: a completed `get_flights_by_dep(icao)` returns exactly the
flights of the resident dataset whose flight plan is present and whose
departure equals `icao` under case-sensitive string equality, in source
order (a sublist of `pilots`), and the empty list — the return type is
always a list, never an absent value — when nothing matches;
`get_flights_by_dest(icao)` does the same for the arrival field; flights
with a null flight plan are excluded from both. -/
theorem c3_directional_queries (st : VState) (env : Env) (now : Rat) (icao : String) :
    (∀ st3 res, (get_flights_by_dep st env now icao).2 = .ok (st3, res) →
      ∃ d, st3.vatsim_data = some d
        ∧ (∀ f, f ∈ res ↔
            f ∈ d.pilots ∧ ∃ fp, f.flight_plan = some fp ∧ fp.departure = icao)
        ∧ res.Sublist d.pilots
        ∧ ((∀ f ∈ d.pilots, ∀ fp, f.flight_plan = some fp → fp.departure ≠ icao) →
            res = []))
    ∧ (∀ st3 res, (get_flights_by_dest st env now icao).2 = .ok (st3, res) →
      ∃ d, st3.vatsim_data = some d
        ∧ (∀ f, f ∈ res ↔
            f ∈ d.pilots ∧ ∃ fp, f.flight_plan = some fp ∧ fp.arrival = icao)
        ∧ res.Sublist d.pilots
        ∧ ((∀ f ∈ d.pilots, ∀ fp, f.flight_plan = some fp → fp.arrival ≠ icao) →
            res = [])) := by
  constructor
  · intro st3 res h
    obtain ⟨d, hd, hres⟩ := get_flights_by_dep_ok st env now icao st3 res h
    refine ⟨d, hd, ?_, ?_, ?_⟩
    · intro f
      rw [hres, List.mem_filter, dep_matches_iff]
    · rw [hres]; exact List.filter_sublist d.pilots
    · intro hnone
      rw [hres, List.filter_eq_nil_iff]
      intro f hf hmatch
      obtain ⟨fp, hfp, hdep⟩ := (dep_matches_iff icao f).mp hmatch
      exact hnone f hf fp hfp hdep
  · intro st3 res h
    obtain ⟨d, hd, hres⟩ := get_flights_by_dest_ok st env now icao st3 res h
    refine ⟨d, hd, ?_, ?_, ?_⟩
    · intro f
      rw [hres, List.mem_filter, dest_matches_iff]
    · rw [hres]; exact List.filter_sublist d.pilots
    · intro hnone
      rw [hres, List.filter_eq_nil_iff]
      intro f hf hmatch
      obtain ⟨fp, hfp, harr⟩ := (dest_matches_iff icao f).mp hmatch
      exact hnone f hf fp hfp harr

/-- Witness for C3 at the spec's scenario data: querying `"EGLL"` departures
on the fresh sample dataset returns exactly `[fl1]`, and membership of `fl1`
is characterised by its flight plan. -/
theorem c3_directional_queries_witness :
    fl1 ∈ ds1.pilots ∧ ∃ fp, fl1.flight_plan = some fp ∧ fp.departure = "EGLL" := by
  have hio : is_data_outdated stFresh env1 0 = ([], .ok stFresh) :=
    is_data_outdated_of_fresh stFresh ds1 env1 0 rfl (by norm_num [ds1, update_delay])
  have hgf : get_flights stFresh env1 0 = ([], .ok (stFresh, ds1.pilots)) := by
    simp only [get_flights, hio]
    rfl
  have hdep : (get_flights_by_dep stFresh env1 0 "EGLL").2 = .ok (stFresh, [fl1]) := by
    simp only [get_flights_by_dep, hio, hgf]
    rfl
  obtain ⟨d, hd, hiff, -, -⟩ :=
    (c3_directional_queries stFresh env1 0 "EGLL").1 stFresh [fl1] hdep
  have hsome : some d = some ds1 := by rw [← hd]; rfl
  injection hsome with hdd
  rw [hdd] at hiff
  exact (hiff fl1).mp (by simp)

/-! ### Graceful degradation (claim C4) -/

/-- Writing the cache never touches `vatsim_data`. -/
theorem cache_data_vatsim (st : VState) (env : Env) :
    (cache_data st env).vatsim_data = st.vatsim_data := by
  unfold cache_data; split <;> rfl

/-- A local fetch keeps the dataset present. -/
theorem fetch_local_some (st : VState) (env : Env) (c : FileRead) (p : String)
    (h : st.vatsim_data.isSome = true) :
    ((fetch_local_data st env c p).2).vatsim_data.isSome = true := by
  cases c with
  | missing => exact h
  | malformed => exact h
  | ok d => simp [fetch_local_data, cache_data_vatsim]

/-- A remote fetch that completes (transport errors recovered by the
fail-safe, or a parsed body) keeps the dataset present. -/
theorem fetch_new_some (st : VState) (env : Env)
    (h : st.vatsim_data.isSome = true) :
    ∀ st2, (fetch_new_data st env).2 = .ok st2 → st2.vatsim_data.isSome = true := by
  intro st2 h2
  cases hn : env.net with
  | httpError =>
      simp only [fetch_new_data, hn, fail_safe] at h2
      injection h2 with h2
      rw [← h2]
      exact fetch_local_some _ _ _ _ h
  | urlError =>
      simp only [fetch_new_data, hn, fail_safe] at h2
      injection h2 with h2
      rw [← h2]
      exact fetch_local_some _ _ _ _ h
  | malformed =>
      simp only [fetch_new_data, hn] at h2
      cases h2
  | ok d =>
      simp only [fetch_new_data, hn] at h2
      injection h2 with h2
      rw [← h2, cache_data_vatsim]
      rfl

/-- Whenever the remote body parses — or never arrives, the transport errors
being recovered by the fail-safe — the remote fetch completes without
raising; only the unparsable-body outcome escapes. -/
theorem fetch_new_ok_of_parsable (st : VState) (env : Env)
    (henv : env.net ≠ NetRead.malformed) :
    ∃ st2, (fetch_new_data st env).2 = .ok st2 := by
  cases hn : env.net with
  | httpError => exact ⟨(fail_safe st env).2, by simp [fetch_new_data, hn]⟩
  | urlError => exact ⟨(fail_safe st env).2, by simp [fetch_new_data, hn]⟩
  | malformed => exact absurd hn henv
  | ok d =>
      exact ⟨cache_data { st with vatsim_data := some d } env, by simp [fetch_new_data, hn]⟩

/-- With a dataset present and a parsable network, the staleness check
completes without raising and keeps a dataset present. -/
theorem is_data_outdated_some (st : VState) (env : Env) (now : Rat)
    (h : st.vatsim_data.isSome = true) (henv : env.net ≠ NetRead.malformed) :
    ∃ st2, (is_data_outdated st env now).2 = .ok st2
      ∧ st2.vatsim_data.isSome = true := by
  cases hd : st.vatsim_data with
  | none => rw [hd] at h; cases h
  | some d =>
      by_cases hstale : (now - d.general.update) / 60 > d.general.reload + update_delay
      · cases hlm : st.local_mode with
        | false =>
            rw [is_data_outdated_of_stale_remote st d env now hd hstale hlm]
            obtain ⟨st2, h2⟩ := fetch_new_ok_of_parsable st env henv
            exact ⟨st2, h2, fetch_new_some st env h st2 h2⟩
        | true =>
            rw [is_data_outdated_of_stale_local st d env now hd hstale hlm]
            exact ⟨(fetch_local_data st env env.testFile test_data_path).2, rfl,
              fetch_local_some _ _ _ _ h⟩
      · rw [is_data_outdated_of_fresh st d env now hd hstale]
        exact ⟨st, rfl, h⟩

/-- With a dataset present `get_flights` completes without raising and keeps
a dataset present. -/
theorem get_flights_some (st : VState) (env : Env) (now : Rat)
    (h : st.vatsim_data.isSome = true) (henv : env.net ≠ NetRead.malformed) :
    ∃ st2 fl, (get_flights st env now).2 = .ok (st2, fl)
      ∧ st2.vatsim_data.isSome = true := by
  obtain ⟨st2, hio, h2⟩ := is_data_outdated_some st env now h henv
  rcases hio' : is_data_outdated st env now with ⟨effs, res⟩
  rw [hio'] at hio
  have hres : res = .ok st2 := hio
  subst hres
  cases hd2 : st2.vatsim_data with
  | none => rw [hd2] at h2; cases h2
  | some d =>
      refine ⟨st2, d.pilots, ?_, h2⟩
      simp only [get_flights, hio', hd2]

/-- With a dataset present `get_flights_by_dep` completes without raising
and keeps a dataset present. -/
theorem get_flights_by_dep_some (st : VState) (env : Env) (now : Rat) (icao : String)
    (h : st.vatsim_data.isSome = true) (henv : env.net ≠ NetRead.malformed) :
    ∃ st3 res, (get_flights_by_dep st env now icao).2 = .ok (st3, res)
      ∧ st3.vatsim_data.isSome = true := by
  obtain ⟨st2, hio, h2⟩ := is_data_outdated_some st env now h henv
  rcases hio' : is_data_outdated st env now with ⟨effs1, res1⟩
  rw [hio'] at hio
  have hres : res1 = .ok st2 := hio
  subst hres
  obtain ⟨st3, fl, hgf, h3⟩ := get_flights_some st2 env now h2 henv
  rcases hgf' : get_flights st2 env now with ⟨effs2, res2⟩
  rw [hgf'] at hgf
  have hres2 : res2 = .ok (st3, fl) := hgf
  subst hres2
  refine ⟨st3, fl.filter (dep_matches icao), ?_, h3⟩
  simp only [get_flights_by_dep, hio', hgf']

/-- With a dataset present `get_flights_by_dest` completes without raising
and keeps a dataset present. -/
theorem get_flights_by_dest_some (st : VState) (env : Env) (now : Rat) (icao : String)
    (h : st.vatsim_data.isSome = true) (henv : env.net ≠ NetRead.malformed) :
    ∃ st3 res, (get_flights_by_dest st env now icao).2 = .ok (st3, res)
      ∧ st3.vatsim_data.isSome = true := by
  obtain ⟨st2, hio, h2⟩ := is_data_outdated_some st env now h henv
  rcases hio' : is_data_outdated st env now with ⟨effs1, res1⟩
  rw [hio'] at hio
  have hres : res1 = .ok st2 := hio
  subst hres
  obtain ⟨st3, fl, hgf, h3⟩ := get_flights_some st2 env now h2 henv
  rcases hgf' : get_flights st2 env now with ⟨effs2, res2⟩
  rw [hgf'] at hgf
  have hres2 : res2 = .ok (st3, fl) := hgf
  subst hres2
  refine ⟨st3, fl.filter (dest_matches icao), ?_, h3⟩
  simp only [get_flights_by_dest, hio', hgf']

/-- Counterexample to claim C4 as stated: two error paths do escape to the
top level.  With the empty `vatsim_data` dict (no dataset ever loaded) the
staleness check raises an uncaught `KeyError` instead of completing, and the
state is reachable from process start — a construction outside local mode
whose remote fetch fails and whose local test-data file is missing ends in
exactly this uncaught `KeyError`, as does the same construction in local
mode.  And with a dataset fully resident (`stFresh` holds `ds1`) a
staleness-triggered remote fetch that receives a delivered but unparsable
body raises the `JSONDecodeError` that `__fetch_new_data` never catches. -/
theorem c4_uncaught_error_paths :
    (is_data_outdated stEmpty env_missing 0 = ([], .error (.keyError "general"))
      ∧ (vatsim_init false none env_missing 0).2 = .error (.keyError "general")
      ∧ (vatsim_init true none env_missing 0).2 = .error (.keyError "general"))
    ∧ (stFresh.vatsim_data = some ds1
      ∧ stFresh.local_mode = false
      ∧ is_data_outdated stFresh env_badjson 600 =
          ([.remoteFetch live_data_url], .error .jsonDecodeError)) := by
  refine ⟨⟨rfl, rfl, rfl⟩, rfl, rfl, ?_⟩
  rw [is_data_outdated_of_stale_remote stFresh ds1 env_badjson 600 rfl
    (by norm_num [ds1, update_delay]) rfl]
  rfl

/-- Claim C4 amended: input-validation errors, local-file errors and the
cache-write error are handled where they arise (`fetch_local_data` and
`cache_data` are total functions of the model), transport and HTTP errors
on the remote fetch are recovered internally by the fail-safe, and with a
dataset resident the staleness check and all query operations complete
without raising as long as every remote response body that arrives parses
as JSON — the two remaining paths, subscripting the empty `vatsim_data`
dict and `json.load` on a delivered but unparsable remote body, raise
uncaught exceptions (see the counterexample). -/
theorem c4_no_fatal_when_loaded (st : VState) (env : Env) (now : Rat) (icao : String)
    (h : st.vatsim_data.isSome = true) (henv : env.net ≠ NetRead.malformed) :
    isOkE (is_data_outdated st env now).2 = true
    ∧ isOkE (get_flights st env now).2 = true
    ∧ isOkE (get_flights_by_dep st env now icao).2 = true
    ∧ isOkE (get_flights_by_dest st env now icao).2 = true
    ∧ (env.net = NetRead.httpError ∨ env.net = NetRead.urlError →
        ∃ st1, (fetch_new_data st env).2 = .ok st1) := by
  obtain ⟨st2, h1, -⟩ := is_data_outdated_some st env now h henv
  obtain ⟨st3, fl3, h2, -⟩ := get_flights_some st env now h henv
  obtain ⟨st4, r4, h3, -⟩ := get_flights_by_dep_some st env now icao h henv
  obtain ⟨st5, r5, h4, -⟩ := get_flights_by_dest_some st env now icao h henv
  rw [h1, h2, h3, h4]
  refine ⟨rfl, rfl, rfl, rfl, fun _ => ?_⟩
  exact fetch_new_ok_of_parsable st env henv

/-- Witness for C4's amended theorem at concrete inputs: with the sample
dataset resident and a parsable network, the staleness check and a
departure query both complete without raising. -/
theorem c4_no_fatal_when_loaded_witness :
    isOkE (is_data_outdated stFresh env1 0).2 = true
    ∧ isOkE (get_flights_by_dep stFresh env1 0 "EGLL").2 = true := by
  have henv : env1.net ≠ NetRead.malformed := by simp [env1]
  exact ⟨(c4_no_fatal_when_loaded stFresh env1 0 "EGLL" rfl henv).1,
    (c4_no_fatal_when_loaded stFresh env1 0 "EGLL" rfl henv).2.2.1⟩

/-! ### The presentation layer's row construction (claim C5) -/

/-- Claim C5 fails on the code: for a flight conforming to the documented
external Dataset shape (`callsign` plus `flight_plan` with `departure` and
`arrival`), `dialog` builds its table rows by subscripting the legacy keys
`planned_destairport` and `planned_depairport`, which the shape does not
contain, so both row constructions raise an uncaught `KeyError` instead of
producing the (callsign, counterpart-airport) pair — even though the same
flight's `callsign` and `flight_plan` fields are present and well-formed. -/
theorem c5_row_build_keyerror :
    dep_row (flight_dict fl1) = .error (.keyError "planned_destairport")
    ∧ arr_row (flight_dict fl1) = .error (.keyError "planned_depairport")
    ∧ dict_get (flight_dict fl1) "callsign" = .ok (.str "BAW123")
    ∧ dict_get (flight_dict fl1) "flight_plan" =
        .ok (.obj [("departure", .str "EGLL"), ("arrival", .str "EDDF")]) :=
  ⟨rfl, rfl, rfl, rfl⟩

/-! ### Local fetch error handling and the cache round-trip (claims C6, C7) -/

/-- Claim C6: a local fetch hitting a missing file or malformed JSON logs
and terminates normally with the whole state — `vatsim_data` and the cache
file included — exactly as before the call, so no cache write occurs; a
successful local fetch (with a writable cache directory) replaces
`vatsim_data` with the parsed content and writes it to the cache file. -/
theorem c6_fetch_local_error_handling (st : VState) (env : Env) (path : String) :
    fetch_local_data st env .missing path = ([.localFetch path], st)
    ∧ fetch_local_data st env .malformed path = ([.localFetch path], st)
    ∧ (∀ d, env.cacheDirOk = true →
        fetch_local_data st env (.ok d) path =
          ([.localFetch path], { st with vatsim_data := some d, cacheFile := some d })) := by
  refine ⟨rfl, rfl, ?_⟩
  intro d hdir
  simp [fetch_local_data, cache_data, hdir]

/-- Witness for C6 at concrete inputs: a missing file leaves the sample
state untouched; a successful read replaces the data and the cache. -/
theorem c6_fetch_local_error_handling_witness :
    fetch_local_data stFresh env1 .missing test_data_path =
      ([.localFetch test_data_path], stFresh)
    ∧ fetch_local_data stFresh env1 (.ok ds1) test_data_path =
        ([.localFetch test_data_path],
          { stFresh with vatsim_data := some ds1, cacheFile := some ds1 }) :=
  ⟨(c6_fetch_local_error_handling stFresh env1 test_data_path).1,
    (c6_fetch_local_error_handling stFresh env1 test_data_path).2.2 ds1 rfl⟩

/-- Claim C7: writing the resident dataset to the cache file with
`__cache_data` and loading that file back with `__fetch_local_data` yields
a `vatsim_data` field-for-field identical to the original dataset. -/
theorem c7_cache_roundtrip (st : VState) (env : Env) (d : Dataset)
    (hdata : st.vatsim_data = some d) (hdir : env.cacheDirOk = true) :
    ((fetch_local_data (cache_data st env) env (read_cache (cache_data st env))
        cached_data_path).2).vatsim_data = some d := by
  have hc : cache_data st env = { st with cacheFile := some d } := by
    rw [cache_data, if_pos hdir, hdata]
  rw [hc]
  have hr : read_cache { st with cacheFile := some d } = .ok d := rfl
  rw [hr]
  simp only [fetch_local_data]
  rw [cache_data_vatsim]

/-- Witness for C7 at concrete inputs: caching and re-reading the sample
dataset returns it unchanged. -/
theorem c7_cache_roundtrip_witness :
    ((fetch_local_data (cache_data stFresh env1) env1
        (read_cache (cache_data stFresh env1)) cached_data_path).2).vatsim_data = some ds1 :=
  c7_cache_roundtrip stFresh env1 ds1 rfl rfl

/-! ### Disjointness of the directional filters (claim C8) -/

/-- Claim C8: for every dataset and icao, a flight lies in both directional
result lists iff its flight plan is present and both departs from and
arrives at that icao (so for any other flight the two lists are disjoint);
and such a self-loop flight occurring exactly once among the pilots appears
exactly once in each of the two lists — included in both, dropped from
neither. -/
theorem c8_dep_dest_selfloop (d : Dataset) (icao : String) :
    (∀ f, f ∈ flights_by_dep d icao ∧ f ∈ flights_by_dest d icao ↔
        f ∈ d.pilots ∧
          ∃ fp, f.flight_plan = some fp ∧ fp.departure = icao ∧ fp.arrival = icao)
    ∧ (∀ f fp, f.flight_plan = some fp → fp.departure = icao → fp.arrival = icao →
        d.pilots.count f = 1 →
        (flights_by_dep d icao).count f = 1 ∧ (flights_by_dest d icao).count f = 1) := by
  constructor
  · intro f
    constructor
    · rintro ⟨hdep, hdest⟩
      rw [flights_by_dep, List.mem_filter] at hdep
      rw [flights_by_dest, List.mem_filter] at hdest
      obtain ⟨fp, hfp, hd1⟩ := (dep_matches_iff icao f).mp hdep.2
      obtain ⟨fp2, hfp2, hd2⟩ := (dest_matches_iff icao f).mp hdest.2
      rw [hfp] at hfp2
      injection hfp2 with heq
      subst heq
      exact ⟨hdep.1, fp, hfp, hd1, hd2⟩
    · rintro ⟨hmem, fp, hfp, hd1, hd2⟩
      constructor
      · rw [flights_by_dep, List.mem_filter]
        exact ⟨hmem, (dep_matches_iff icao f).mpr ⟨fp, hfp, hd1⟩⟩
      · rw [flights_by_dest, List.mem_filter]
        exact ⟨hmem, (dest_matches_iff icao f).mpr ⟨fp, hfp, hd2⟩⟩
  · intro f fp hfp hd1 hd2 hcount
    have hpm : dep_matches icao f = true := (dep_matches_iff icao f).mpr ⟨fp, hfp, hd1⟩
    have hqm : dest_matches icao f = true := (dest_matches_iff icao f).mpr ⟨fp, hfp, hd2⟩
    rw [flights_by_dep, flights_by_dest, List.count_filter hpm, List.count_filter hqm]
    exact ⟨hcount, hcount⟩

/-- Witness for C8 at concrete inputs: the sample self-loop flight, present
once among the pilots, appears exactly once in each directional result for
its airport. -/
theorem c8_dep_dest_selfloop_witness :
    (flights_by_dep ds2 "EGLL").count fl3 = 1
    ∧ (flights_by_dest ds2 "EGLL").count fl3 = 1 :=
  (c8_dep_dest_selfloop ds2 "EGLL").2 fl3
    { departure := "EGLL", arrival := "EGLL" } rfl rfl rfl (by decide)

/-! ### Input validation (claim C9) -/

/-- Claim C9: the interactive prompt accepts an input iff it is non-empty,
all-alphanumeric and exactly 4 characters long; an accepted input is
upper-cased before being used as the query icao; a rejected input prints a
validation message and re-prompts — the loop simply moves on to the next
input, never failing hard. -/
theorem c9_input_validation (s : String) (rest : List String) :
    (valid_icao s = true ↔
      s.data ≠ [] ∧ (∀ c ∈ s.data, c.isAlphanum = true) ∧ s.length = 4)
    ∧ (valid_icao s = true → dialog_input (s :: rest) = some (py_upper s))
    ∧ (valid_icao s = false → dialog_input (s :: rest) = dialog_input rest) := by
  refine ⟨?_, ?_, ?_⟩
  · constructor
    · intro h
      rw [valid_icao, Bool.and_eq_true] at h
      obtain ⟨h1, h2⟩ := h
      rw [pyIsalnum, Bool.and_eq_true] at h1
      obtain ⟨h3, h4⟩ := h1
      refine ⟨?_, List.all_eq_true.mp h4, beq_iff_eq.mp h2⟩
      intro hnil
      rw [hnil] at h3
      cases h3
    · rintro ⟨h1, h2, h3⟩
      rw [valid_icao, Bool.and_eq_true, pyIsalnum, Bool.and_eq_true]
      refine ⟨⟨?_, List.all_eq_true.mpr h2⟩, by rw [h3]; rfl⟩
      cases hd : s.data with
      | nil => exact absurd hd h1
      | cons a l => rfl
  · intro h; simp [dialog_input, h]
  · intro h; simp [dialog_input, h]

/-- Witness for C9 at the spec's scenario inputs: `"EGL"` is rejected and
re-prompted, `"eg11"` is accepted and upper-cased to `"EG11"`. -/
theorem c9_input_validation_witness :
    valid_icao "EGL" = false
    ∧ valid_icao "eg11" = true
    ∧ dialog_input ["EGL", "eg11"] = some "EG11" := by
  have h1 := (c9_input_validation "EGL" ["eg11"]).2.2 (by decide)
  have h2 := (c9_input_validation "eg11" []).2.1 (by decide)
  refine ⟨by decide, by decide, ?_⟩
  rw [h1, h2]
  decide

/-! ### Table row formatting through eval (claim C10) -/

/-- Unpacking `plain_cell_char`. -/
theorem plain_cell_char_spec (c : Char) (h : plain_cell_char c = true) :
    c ≠ squote ∧ c ≠ bslash ∧ 32 ≤ c.toNat := by
  rw [plain_cell_char, Bool.and_eq_true, Bool.and_eq_true] at h
  obtain ⟨⟨h1, h2⟩, h3⟩ := h
  rw [Bool.not_eq_true'] at h1 h2
  exact ⟨of_decide_eq_false h1, of_decide_eq_false h2, of_decide_eq_true h3⟩

/-- Scanning a quote-free plain body finds exactly the closing quote. -/
theorem scan_str_plain (s : List Char) (h : ∀ c ∈ s, plain_cell_char c = true) :
    ∀ rest, scan_str (s ++ squote :: rest) = some (s, rest) := by
  induction s with
  | nil => intro rest; simp [scan_str]
  | cons c s ih =>
      intro rest
      obtain ⟨h1, h2, h3⟩ := plain_cell_char_spec c (h c (List.mem_cons_self c s))
      have hrest : ∀ x ∈ s, plain_cell_char x = true :=
        fun x hx => h x (List.mem_cons_of_mem c hx)
      have hno : ¬(c = bslash ∨ c.toNat < 32) := by
        rintro (h' | h')
        · exact h2 h'
        · omega
      simp only [List.cons_append, scan_str]
      rw [if_neg h1, if_neg hno]
      simp only [List.append_eq]
      rw [ih hrest]

/-- Scanning a plain cell body inside an argument literal collects exactly
that body. -/
theorem parse_inArg (s : List Char) (h : ∀ c ∈ s, plain_cell_char c = true) :
    ∀ cur acc rest, parse_args_go (.inArg cur) acc (s ++ squote :: rest) =
      parse_args_go .afterArg (acc ++ [cur ++ s]) rest := by
  induction s with
  | nil =>
      intro cur acc rest
      simp [parse_args_go]
  | cons c s ih =>
      intro cur acc rest
      obtain ⟨h1, h2, h3⟩ := plain_cell_char_spec c (h c (List.mem_cons_self c s))
      have hrest : ∀ x ∈ s, plain_cell_char x = true :=
        fun x hx => h x (List.mem_cons_of_mem c hx)
      have hno : ¬(c = bslash ∨ c.toNat < 32) := by
        rintro (h' | h')
        · exact h2 h'
        · omega
      simp only [List.cons_append, parse_args_go]
      rw [if_neg h1, if_neg hno]
      simp only [List.append_eq]
      rw [ih hrest]
      rw [show cur ++ c :: s = (cur ++ [c]) ++ s by simp]

/-- Parsing the generated argument piece of a nonempty plain row recovers
exactly the cells. -/
theorem parse_args_piece (row : List String) (hne : row ≠ [])
    (h : ∀ s ∈ row, plain_cell s = true) :
    ∀ acc first, parse_args_go (.expectArg first) acc ((args_piece row).data ++ [')']) =
      some (acc ++ row.map String.data) := by
  induction row with
  | nil => exact absurd rfl hne
  | cons c rest ih =>
      intro acc first
      have hc : ∀ x ∈ c.data, plain_cell_char x = true :=
        List.all_eq_true.mp (h c (List.mem_cons_self c rest))
      cases rest with
      | nil =>
          have hd : (args_piece [c]).data ++ [')'] =
              squote :: (c.data ++ squote :: [')']) := by
            simp [args_piece, sq_str, String.data_append]
          rw [hd]
          simp only [parse_args_go]
          rw [if_pos trivial, parse_inArg c.data hc]
          simp [parse_args_go]
      | cons c2 rest2 =>
          have hd : (args_piece (c :: c2 :: rest2)).data ++ [')'] =
              squote :: (c.data ++ squote ::
                (',' :: ((args_piece (c2 :: rest2)).data ++ [')']))) := by
            simp [args_piece, sq_str, String.data_append]
          rw [hd]
          simp only [parse_args_go]
          rw [if_pos trivial, parse_inArg c.data hc]
          simp only [parse_args_go]
          rw [if_pos trivial]
          rw [ih (List.cons_ne_nil c2 rest2)
            (fun x hx => h x (List.mem_cons_of_mem c hx)) (acc ++ [[] ++ c.data]) false]
          simp

/-- Every character of a rendered number is an ASCII digit. -/
theorem nat_repr_aux_bounds : ∀ fuel n c, c ∈ nat_repr_aux fuel n →
    48 ≤ c.toNat ∧ c.toNat ≤ 57 := by
  intro fuel
  induction fuel with
  | zero => intro n c hc; cases hc
  | succ fuel ih =>
      intro n c hc
      rw [nat_repr_aux] at hc
      by_cases h10 : n < 10
      · rw [if_pos h10] at hc
        have hceq : c = Char.ofNat (48 + n) := List.mem_singleton.mp hc
        subst hceq
        interval_cases n <;> decide
      · rw [if_neg h10] at hc
        rcases List.mem_append.mp hc with hc | hc
        · exact ih _ c hc
        · have hceq : c = Char.ofNat (48 + n % 10) := List.mem_singleton.mp hc
          subst hceq
          have hm : n % 10 < 10 := Nat.mod_lt _ (by norm_num)
          revert hm
          generalize n % 10 = r
          intro hm
          interval_cases r <;> decide

/-- An ASCII digit passes the format-width digit test. -/
theorem digit_char_of_bounds (c : Char) (h1 : 48 ≤ c.toNat) (h2 : c.toNat ≤ 57) :
    digit_char c = true := by
  simp only [digit_char, Bool.and_eq_true, decide_eq_true_eq]
  exact ⟨h1, h2⟩

/-- An ASCII digit is a plain cell character. -/
theorem plain_of_digit_bounds (c : Char) (h1 : 48 ≤ c.toNat) (h2 : c.toNat ≤ 57) :
    plain_cell_char c = true := by
  simp only [plain_cell_char, Bool.and_eq_true, Bool.not_eq_true',
    decide_eq_false_iff_not, decide_eq_true_eq]
  refine ⟨⟨?_, ?_⟩, by omega⟩
  · intro heq
    have : squote.toNat = 39 := rfl
    rw [heq, this] at h1 h2
    omega
  · intro heq
    have : bslash.toNat = 92 := rfl
    rw [heq, this] at h1 h2
    omega

/-- Appending one digit multiplies the value by ten and adds it. -/
theorem digits_to_nat_append (xs : List Char) (c : Char) :
    digits_to_nat (xs ++ [c]) = 10 * digits_to_nat xs + digit_val c := by
  rw [digits_to_nat, digits_to_nat, List.foldl_append]
  rfl

/-- Rendering a number below the fuel bound and reading it back is the
identity. -/
theorem digits_to_nat_nat_repr_aux : ∀ fuel n, n < 10 ^ fuel →
    digits_to_nat (nat_repr_aux fuel n) = n := by
  intro fuel
  induction fuel with
  | zero =>
      intro n h
      have hn : n = 0 := by simpa using h
      subst hn
      rfl
  | succ fuel ih =>
      intro n h
      rw [nat_repr_aux]
      by_cases h10 : n < 10
      · rw [if_pos h10]
        interval_cases n <;> decide
      · rw [if_neg h10, digits_to_nat_append]
        have hdiv : n / 10 < 10 ^ fuel := by
          rw [Nat.div_lt_iff_lt_mul (by norm_num)]
          calc n < 10 ^ (fuel + 1) := h
          _ = 10 ^ fuel * 10 := by rw [pow_succ]
        rw [ih _ hdiv]
        have hm : n % 10 < 10 := Nat.mod_lt _ (by norm_num)
        have hv : digit_val (Char.ofNat (48 + n % 10)) = n % 10 := by
          revert hm
          generalize n % 10 = r
          intro hm
          interval_cases r <;> decide
        rw [hv]
        omega

/-- Reading back the rendered width gives the width. -/
theorem digits_to_nat_nat_repr (n : Nat) : digits_to_nat (nat_repr n).data = n := by
  rw [nat_repr]
  exact digits_to_nat_nat_repr_aux (n + 1) n
    (lt_of_lt_of_le (Nat.lt_pow_self (by norm_num) n)
      (Nat.pow_le_pow_right (by norm_num) (Nat.le_succ n)))

/-- A rendered number is never empty. -/
theorem nat_repr_data_ne_nil (n : Nat) : (nat_repr n).data ≠ [] := by
  rw [nat_repr]
  show nat_repr_aux (n + 1) n ≠ []
  rw [nat_repr_aux]
  split
  · exact List.cons_ne_nil _ _
  · intro hcontra
    exact absurd (List.append_eq_nil.mp hcontra).2 (List.cons_ne_nil _ _)

/-- Every character of a generated format piece is plain (so the literal
scan passes over it). -/
theorem fmt_pieces_data_plain (W : Nat) : ∀ row : List String,
    ∀ c ∈ (fmt_pieces (nat_repr W) row).data, plain_cell_char c = true := by
  have hfix1 : ("| \x7b:<" : String).data = ['|', ' ', lbrace, ':', '<'] := rfl
  have hfix2 : ("\x7d |" : String).data = [rbrace, ' ', '|'] := rfl
  have hfix3 : ("\x7d " : String).data = [rbrace, ' '] := rfl
  have hp1 : ∀ c ∈ ['|', ' ', lbrace, ':', '<'], plain_cell_char c = true := by decide
  have hp2 : ∀ c ∈ [rbrace, ' ', '|'], plain_cell_char c = true := by decide
  have hp3 : ∀ c ∈ [rbrace, ' '], plain_cell_char c = true := by decide
  have hdig : ∀ c ∈ (nat_repr W).data, plain_cell_char c = true := by
    intro c hc
    obtain ⟨h1, h2⟩ := nat_repr_aux_bounds (W + 1) W c hc
    exact plain_of_digit_bounds c h1 h2
  intro row
  induction row with
  | nil => intro c hc; cases hc
  | cons a rest ih =>
      cases rest with
      | nil =>
          intro c hc
          simp only [fmt_pieces, String.data_append, hfix1, hfix2] at hc
          rcases List.mem_append.mp hc with hc | hc
          · rcases List.mem_append.mp hc with hc | hc
            · exact hp1 c hc
            · exact hdig c hc
          · exact hp2 c hc
      | cons b rest2 =>
          intro c hc
          simp only [fmt_pieces, String.data_append, hfix1, hfix3] at hc
          rcases List.mem_append.mp hc with hc | hc
          · rcases List.mem_append.mp hc with hc | hc
            · rcases List.mem_append.mp hc with hc | hc
              · exact hp1 c hc
              · exact hdig c hc
            · exact hp3 c hc
          · exact ih c hc

/-- Literal characters pass straight through the format interpreter. -/
theorem run_fmt_literal (pre : List Char) (h : ∀ c ∈ pre, c ≠ lbrace ∧ c ≠ rbrace) :
    ∀ args fmt, run_fmt none args (pre ++ fmt) =
      (run_fmt none args fmt).map (fun out => pre ++ out) := by
  induction pre with
  | nil =>
      intro args fmt
      cases h' : run_fmt none args fmt <;> simp [h']
  | cons c pre ih =>
      intro args fmt
      obtain ⟨h1, h2⟩ := h c (List.mem_cons_self c pre)
      have hrest : ∀ x ∈ pre, x ≠ lbrace ∧ x ≠ rbrace :=
        fun x hx => h x (List.mem_cons_of_mem c hx)
      rw [List.cons_append, run_fmt.eq_def]
      simp only
      rw [if_neg h1, if_neg h2, ih hrest]
      cases run_fmt none args fmt <;> rfl

/-- The interpreter collects a run of digits into the pending width. -/
theorem run_fmt_collect (ds : List Char) (h : ∀ c ∈ ds, digit_char c = true) :
    ∀ ds0 args rest, run_fmt (some ds0) args (ds ++ rbrace :: rest) =
      run_fmt (some (ds0 ++ ds)) args (rbrace :: rest) := by
  induction ds with
  | nil => intro ds0 args rest; simp
  | cons c ds ih =>
      intro ds0 args rest
      have hc : digit_char c = true := h c (List.mem_cons_self c ds)
      have hrest : ∀ x ∈ ds, digit_char x = true :=
        fun x hx => h x (List.mem_cons_of_mem c hx)
      rw [List.cons_append, run_fmt.eq_def]
      simp only
      rw [if_pos hc, ih hrest, List.append_assoc]
      rfl

/-- A generated placeholder consumes the next argument and left-pads it to
the rendered width. -/
theorem run_fmt_placeholder (ds : List Char) (hne : ds ≠ [])
    (h : ∀ c ∈ ds, digit_char c = true) (a : List Char) (args : List (List Char))
    (rest : List Char) :
    run_fmt none (a :: args) (lbrace :: ':' :: '<' :: (ds ++ rbrace :: rest)) =
      (run_fmt none args rest).map
        (fun out => pad_left_align a (digits_to_nat ds) ++ out) := by
  rw [run_fmt.eq_def]
  simp only
  rw [if_pos trivial, if_pos ⟨trivial, trivial⟩, run_fmt_collect ds h [] (a :: args) rest]
  cases ds with
  | nil => exact absurd rfl hne
  | cons d ds2 =>
      rw [List.nil_append, run_fmt.eq_def]
      simp only
      rw [if_pos trivial]
      cases run_fmt none args rest <;> rfl

/-- Stepping over the leading bar-space of a row piece. -/
theorem run_fmt_bar_space (args : List (List Char)) (fmt : List Char) :
    run_fmt none args ('|' :: ' ' :: fmt) =
      (run_fmt none args fmt).map (fun out => '|' :: ' ' :: out) := by
  simpa using run_fmt_literal ['|', ' '] (by decide) args fmt

/-- Stepping over a single literal space. -/
theorem run_fmt_space (args : List (List Char)) (fmt : List Char) :
    run_fmt none args (' ' :: fmt) =
      (run_fmt none args fmt).map (fun out => ' ' :: out) := by
  simpa using run_fmt_literal [' '] (by decide) args fmt

/-- Running the generated format string of a row over that row's cells
produces exactly the padded row. -/
theorem run_fmt_fmt_pieces (W : Nat) : ∀ row : List String,
    run_fmt none (row.map String.data) ((fmt_pieces (nat_repr W) row).data) =
      some (padded_cells_chars W row) := by
  have hfix1 : ("| \x7b:<" : String).data = ['|', ' ', lbrace, ':', '<'] := rfl
  have hfix2 : ("\x7d |" : String).data = [rbrace, ' ', '|'] := rfl
  have hfix3 : ("\x7d " : String).data = [rbrace, ' '] := rfl
  have hdig : ∀ c ∈ (nat_repr W).data, digit_char c = true := by
    intro c hc
    obtain ⟨h1, h2⟩ := nat_repr_aux_bounds (W + 1) W c hc
    exact digit_char_of_bounds c h1 h2
  intro row
  induction row with
  | nil => rfl
  | cons a rest ih =>
      cases rest with
      | nil =>
          have hdata : (fmt_pieces (nat_repr W) [a]).data =
              '|' :: ' ' :: lbrace :: ':' :: '<' ::
                ((nat_repr W).data ++ rbrace :: ' ' :: '|' :: []) := by
            show ("| \x7b:<" ++ nat_repr W ++ "\x7d |").data = _
            simp [String.data_append, hfix1, hfix2]
            exact ⟨rfl, rfl⟩
          rw [hdata, List.map_cons, List.map_nil, run_fmt_bar_space,
            run_fmt_placeholder (nat_repr W).data (nat_repr_data_ne_nil W) hdig
              a.data [] (' ' :: '|' :: [])]
          rw [show run_fmt none ([] : List (List Char)) (' ' :: '|' :: []) =
            some (' ' :: '|' :: []) from rfl]
          simp [padded_cells_chars, digits_to_nat_nat_repr]
      | cons b rest2 =>
          have hdata : (fmt_pieces (nat_repr W) (a :: b :: rest2)).data =
              '|' :: ' ' :: lbrace :: ':' :: '<' ::
                ((nat_repr W).data ++ rbrace :: ' ' ::
                  (fmt_pieces (nat_repr W) (b :: rest2)).data) := by
            show ("| \x7b:<" ++ nat_repr W ++ "\x7d " ++
              fmt_pieces (nat_repr W) (b :: rest2)).data = _
            simp [String.data_append, hfix1, hfix3]
            exact ⟨rfl, rfl⟩
          rw [hdata, List.map_cons, run_fmt_bar_space,
            run_fmt_placeholder (nat_repr W).data (nat_repr_data_ne_nil W) hdig
              a.data ((b :: rest2).map String.data)
              (' ' :: (fmt_pieces (nat_repr W) (b :: rest2)).data),
            run_fmt_space, ih]
          simp [padded_cells_chars, digits_to_nat_nat_repr]

/-- Evaluating the expression generated from a plain row returns the padded
row. -/
theorem py_eval_generated (W : Nat) (row : List String)
    (h : ∀ s ∈ row, plain_cell s = true) :
    py_eval_format_expr (build_code (nat_repr W) row) = .ok (padded_row W row) := by
  cases row with
  | nil => rfl
  | cons a rest =>
      have hdata : (build_code (nat_repr W) (a :: rest)).data =
          squote :: ((fmt_pieces (nat_repr W) (a :: rest)).data ++ squote ::
            (".format(".data ++ ((args_piece (a :: rest)).data ++ [')']))) := by
        simp [build_code, sq_str, String.data_append]
      have htake : ∀ X : List Char,
          (['.', 'f', 'o', 'r', 'm', 'a', 't', '('] ++ X).take 8 =
            ['.', 'f', 'o', 'r', 'm', 'a', 't', '('] := fun X => rfl
      have hdrop : ∀ X : List Char,
          (['.', 'f', 'o', 'r', 'm', 'a', 't', '('] ++ X).drop 8 = X := fun X => rfl
      have hrun : run_fmt none (a.data :: rest.map String.data)
          ((fmt_pieces (nat_repr W) (a :: rest)).data) =
            some (padded_cells_chars W (a :: rest)) := by
        simpa using run_fmt_fmt_pieces W (a :: rest)
      simp [py_eval_format_expr, hdata,
        scan_str_plain (fmt_pieces (nat_repr W) (a :: rest)).data
          (fmt_pieces_data_plain W (a :: rest)),
        htake, hdrop,
        parse_args_piece (a :: rest) (List.cons_ne_nil a rest) h,
        hrun, padded_row]

/-- Claim C10: the row formatter builds a Python expression from the cell
strings and evaluates it, so on a row containing a plain string with a
single-quote character it raises a `SyntaxError` instead of returning the
padded row; on rows whose cells are free of quote, backslash and control
characters it returns the correctly padded row (each cell left-aligned to
the width of the table's widest cell between bars). -/
theorem c10_table_eval_row :
    create_formatted_row tbl0 ["AAL1", quoted_cell] = .error "SyntaxError"
    ∧ (∀ t row m, find_widest_cell t = some m → row.all plain_cell = true →
        create_formatted_row t row = .ok (padded_row m.length row)) := by
  refine ⟨rfl, ?_⟩
  intro t row m hfind hplain
  simp only [create_formatted_row, hfind]
  exact py_eval_generated m.length row (List.all_eq_true.mp hplain)

/-- Witness for C10 at concrete inputs: a quote-free row of the sample table
formats to the correctly padded row (width 6, the quote-bearing cell being
the widest). -/
theorem c10_table_eval_row_witness :
    create_formatted_row tbl0 ["AAL1", "ORD"] =
      .ok (padded_row quoted_cell.length ["AAL1", "ORD"])
    ∧ padded_row quoted_cell.length ["AAL1", "ORD"] = "| AAL1   | ORD    |" :=
  ⟨c10_table_eval_row.2 tbl0 ["AAL1", "ORD"] quoted_cell rfl (by decide), by decide⟩
